import Mathlib

/-!
Verification of the ed2k-ruby MD4 digest engine.

The repository consists of a C extension for Ruby (`src/ext/main.c`,
`src/ext/main.h`).  The binding function `md4` (main.c, lines 15-23) and the
initialization routine are present in the source; the hashing core
(`md4_data`, declared in main.h as `md4_string`/`md4_file` and called from
main.c line 21) is not present under `src/`, so it is modelled here from the
specification (spec.md §4.1): padding, 64-byte block iteration with three
16-step rounds over a four-word 32-bit state, and little-endian digest
extraction.  Machine words are `Nat` with explicit reduction modulo 2^32.
-/

namespace ED2K

/-- The 32-bit all-ones mask, 2^32 - 1.  Used to express C's bitwise NOT on
a 32-bit word as XOR with the mask. -/
def mask32 : Nat := 2 ^ 32 - 1

/-- Modelled from the spec: circular left rotation within a 32-bit word
("Rotation is a circular bit rotation within a 32-bit word"). -/
def rotl32 (x s : Nat) : Nat := ((x <<< s) ||| (x >>> (32 - s))) % 2 ^ 32

/-- Modelled from the spec: round-1 nonlinear function
F(x,y,z) = (x AND y) OR ((NOT x) AND z), with NOT taken on 32 bits. -/
def mdF (x y z : Nat) : Nat := (x &&& y) ||| ((x ^^^ mask32) &&& z)

/-- Modelled from the spec: round-2 majority function
G(x,y,z) = (x AND y) OR (x AND z) OR (y AND z). -/
def mdG (x y z : Nat) : Nat := (x &&& y) ||| (x &&& z) ||| (y &&& z)

/-- Modelled from the spec: round-3 function H(x,y,z) = x XOR y XOR z. -/
def mdH (x y z : Nat) : Nat := x ^^^ y ^^^ z

/-- The running state: four 32-bit unsigned words (A, B, C, D). -/
abbrev MDState := Nat × Nat × Nat × Nat

/-- Modelled from the spec: the fixed public initial state
A = 0x67452301, B = 0xefcdab89, C = 0x98badcfe, D = 0x10325476. -/
def initState : MDState := (0x67452301, 0xefcdab89, 0x98badcfe, 0x10325476)

/-- Modelled from the spec: one MD4 step.  The word in the A role is updated
to rotate_left(A + f(B,C,D) + X + const, s) and the four-word state is
cyclically re-ordered so that successive steps update A, D, C, B in the
standard MD4 rotation pattern A→D→C→B→A. -/
def mdStep (f : Nat → Nat → Nat → Nat) (cst x s : Nat) : MDState → MDState
  | (a, b, c, d) => (d, rotl32 ((a + f b c d + x + cst) % 2 ^ 32) s, b, c)

/-- Modelled from the spec: a 16-step round is a left fold of `mdStep` over a
schedule of (message-word index, shift) pairs, using round function `f`,
additive constant `cst` and message words `w`. -/
def mdRound (f : Nat → Nat → Nat → Nat) (cst : Nat) (w : Nat → Nat)
    (sched : List (Nat × Nat)) (st : MDState) : MDState :=
  sched.foldl (fun st p => mdStep f cst (w p.1) p.2 st) st

/-- Round-1 word order: X[0..15] in order. -/
def round1order : List Nat := [0, 1, 2, 3, 4, 5, 6, 7, 8, 9, 10, 11, 12, 13, 14, 15]

/-- Round-2 word order: X[0,4,8,12,1,5,9,13,2,6,10,14,3,7,11,15]. -/
def round2order : List Nat := [0, 4, 8, 12, 1, 5, 9, 13, 2, 6, 10, 14, 3, 7, 11, 15]

/-- Round-3 word order: X[0,8,4,12,2,10,6,14,1,9,5,13,3,11,7,15]. -/
def round3order : List Nat := [0, 8, 4, 12, 2, 10, 6, 14, 1, 9, 5, 13, 3, 11, 7, 15]

/-- Pair each word index of a round with its shift, the four shifts cycling
through the round's shift quadruple. -/
def roundSched (order : List Nat) (shifts : List Nat) : List (Nat × Nat) :=
  (List.range 16).map (fun i => (order.getD i 0, shifts.getD (i % 4) 0))

/-- Modelled from the spec: interpret bytes 4k..4k+3 of a 64-byte block as
the 32-bit little-endian message word X[k]. -/
def blockWord (blk : List Nat) (k : Nat) : Nat :=
  blk.getD (4 * k) 0 + 2 ^ 8 * blk.getD (4 * k + 1) 0 +
    2 ^ 16 * blk.getD (4 * k + 2) 0 + 2 ^ 24 * blk.getD (4 * k + 3) 0

/-- Modelled from the spec: the three 16-step rounds applied in order —
round 1 with F, no constant and shifts {3,7,11,19}; round 2 with G,
constant 0x5A827999 and shifts {3,5,9,13}; round 3 with H, constant
0x6ED9EBA1 and shifts {3,9,11,15}. -/
def rounds3 (blk : List Nat) (st : MDState) : MDState :=
  let w := blockWord blk
  mdRound mdH 0x6ED9EBA1 w (roundSched round3order [3, 9, 11, 15])
    (mdRound mdG 0x5A827999 w (roundSched round2order [3, 5, 9, 13])
      (mdRound mdF 0 w (roundSched round1order [3, 7, 11, 19]) st))

/-- Modelled from the spec: compress one 64-byte block.  The incoming state
is saved as (AA,BB,CC,DD), the three rounds are applied, and the saved
words are added back modulo 2^32. -/
def processBlock (blk : List Nat) (st : MDState) : MDState :=
  let st3 := rounds3 blk st
  ((st3.1 + st.1) % 2 ^ 32, (st3.2.1 + st.2.1) % 2 ^ 32,
   (st3.2.2.1 + st.2.2.1) % 2 ^ 32, (st3.2.2.2 + st.2.2.2) % 2 ^ 32)

/-- Modelled from the spec: number of 0x00 padding bytes — as many as needed
after the single 0x80 byte so that the total length is congruent to 56
modulo 64. -/
def padZeros (len : Nat) : Nat := (119 - len % 64) % 64

/-- Modelled from the spec: the original bit-length 8*L encoded as a 64-bit
little-endian integer (eight bytes, least significant first). -/
def lenBytes (len : Nat) : List Nat :=
  (List.range 8).map (fun i => ((8 * len) >>> (8 * i)) % 2 ^ 8)

/-- Modelled from the spec: the padded message — the input, one 0x80 byte,
the minimal run of 0x00 bytes reaching 56 mod 64, then the 64-bit
little-endian bit length. -/
def pad (msg : List Nat) : List Nat :=
  msg ++ [0x80] ++ List.replicate (padZeros msg.length) 0 ++ lenBytes msg.length

/-- Split a byte list into consecutive 64-byte chunks; `fuel` bounds the
recursion and is instantiated with the list length, which always suffices. -/
def chunks64 : Nat → List Nat → List (List Nat)
  | 0, _ => []
  | _ + 1, [] => []
  | n + 1, b :: bs => (b :: bs).take 64 :: chunks64 n ((b :: bs).drop 64)

/-- Emit a 32-bit word as four bytes, little-endian. -/
def wordLE (w : Nat) : List Nat :=
  [w % 2 ^ 8, (w >>> 8) % 2 ^ 8, (w >>> 16) % 2 ^ 8, (w >>> 24) % 2 ^ 8]

/-- Emit the four state words A, B, C, D in order, each little-endian. -/
def stateBytes : MDState → List Nat
  | (a, b, c, d) => wordLE a ++ wordLE b ++ wordLE c ++ wordLE d

/-- Modelled from the spec: the MD4 core `md4_data`, whose C implementation
is declared in src/ext/main.h and called from src/ext/main.c line 21 but is
not present under src/.  Pads the input, folds the block compression over
the 64-byte chunks starting from the fixed initial state, and emits the
final state little-endian. -/
def md4_data (msg : List Nat) : List Nat :=
  let padded := pad msg
  stateBytes ((chunks64 padded.length padded).foldl (fun st blk => processBlock blk st) initState)

/-- ASCII bytes of a string literal, for stating the RFC 1320 test vectors. -/
def strBytes (s : String) : List Nat := s.data.map Char.toNat

/-- Bit reversal of a 4-bit index, used to characterize the round-3 word
order. -/
def bitrev4 (i : Nat) : Nat :=
  8 * (i % 2) + 4 * (i / 2 % 2) + 2 * (i / 4 % 2) + i / 8 % 2

/-- Recombine a little-endian byte list into the integer it encodes. -/
def bytesToNatLE (l : List Nat) : Nat := l.foldr (fun byte acc => byte + 2 ^ 8 * acc) 0

/-- A Ruby value as seen by the C binding in src/ext/main.c: either a
`T_STRING` carrying its raw bytes (`RSTRING_PTR`/`RSTRING_LEN`), or some
other (non-string) object, distinguished by an abstract tag. -/
inductive RValue where
  | rstring (bytes : List Nat)
  | other (tag : Nat)
deriving DecidableEq

/-- The `RB_TYPE_P(data, T_STRING)` check of src/ext/main.c line 16. -/
def isStringVal : RValue → Bool
  | .rstring _ => true
  | .other _ => false

/-- A raised Ruby exception: exception class name and message, as produced
by `rb_raise` in src/ext/main.c line 17. -/
abbrev RubyError := String × String

/-- The binding function `md4` of src/ext/main.c lines 15-23: if the
argument is not a string it raises RuntimeError "No data to MD4 encode.";
otherwise it extracts the bytes and length, runs `md4_data` into a local
16-byte array and returns those 16 bytes as a new Ruby string. -/
def md4 : RValue → Except RubyError (List Nat)
  | .rstring bytes => .ok (md4_data bytes)
  | .other _ => .error ("RuntimeError", "No data to MD4 encode.")

/-- Observable events of one call to the binding, in program order,
mirroring the control flow of src/ext/main.c: the type check on line 16
happens first; on the error path `rb_raise` on line 17 transfers control
out before `md4_data` on line 21 ever runs; on the success path the hash
is computed and the digest returned on line 22. -/
inductive Event where
  | typeCheck
  | raised (e : RubyError)
  | hashed (input : List Nat)
  | returned (digest : List Nat)
deriving DecidableEq

/-- Event trace of one call to `md4`, following src/ext/main.c lines 16-22. -/
def md4_trace : RValue → List Event
  | .rstring b => [.typeCheck, .hashed b, .returned (md4_data b)]
  | .other _ => [.typeCheck, .raised ("RuntimeError", "No data to MD4 encode.")]

/-- The memory a call to the binding could conceivably touch: the argument
(with its buffer when it is a string), other caller-owned memory, and
interpreter-global state.  The local 16-byte `hash` array of main.c line 20
is call-private and not part of this world. -/
structure World where
  arg : RValue
  callerMem : List Nat
  globals : List Nat
deriving DecidableEq

/-- Modelled from the spec: one invocation of the binding as a state
transformer.  src/ext/main.c only reads the argument buffer and writes the
local `hash` array; the core `md4_data` is absent from src/ and the spec
states it mutates no caller-owned memory, performs no I/O and retains no
global state, so the call returns the world unchanged together with the
call's result. -/
def md4_invoke (w : World) : World × Except RubyError (List Nat) := (w, md4 w.arg)

/-! Theorems. -/

/-- Emitting the four state words always yields exactly 16 bytes. -/
theorem stateBytes_length (st : MDState) : (stateBytes st).length = 16 := by
  obtain ⟨a, b, c, d⟩ := st
  simp [stateBytes, wordLE]

/-- C1: for the inputs "a", "abc" and "message digest" the digest operation
returns exactly the canonical RFC 1320 MD4 values
bde52cb31de33e46245e05fbdbd6fb24, a448017aaf21d8525fc10ae87aa6729d and
d9130a8164549fe818874806e1c7014b, 16 bytes each. -/
theorem md4_rfc1320_vectors :
    md4_data (strBytes "a") =
      [0xbd, 0xe5, 0x2c, 0xb3, 0x1d, 0xe3, 0x3e, 0x46,
       0x24, 0x5e, 0x05, 0xfb, 0xdb, 0xd6, 0xfb, 0x24] ∧
    md4_data (strBytes "abc") =
      [0xa4, 0x48, 0x01, 0x7a, 0xaf, 0x21, 0xd8, 0x52,
       0x5f, 0xc1, 0x0a, 0xe8, 0x7a, 0xa6, 0x72, 0x9d] ∧
    md4_data (strBytes "message digest") =
      [0xd9, 0x13, 0x0a, 0x81, 0x64, 0x54, 0x9f, 0xe8,
       0x18, 0x87, 0x48, 0x06, 0xe1, 0xc7, 0x01, 0x4b] ∧
    (md4_data (strBytes "a")).length = 16 ∧
    (md4_data (strBytes "abc")).length = 16 ∧
    (md4_data (strBytes "message digest")).length = 16 := by
  refine ⟨?_, ?_, ?_, ?_, ?_, ?_⟩ <;> decide

/-- C2 counterexample: the digest of the empty byte sequence is not the
16-byte value 31 D6 CD E5 05 19 6D 48 95 47 75 97 E9 B3 80 37 claimed by
the spec. -/
theorem md4_empty_not_claimed_value :
    md4_data [] ≠
      [0x31, 0xD6, 0xCD, 0xE5, 0x05, 0x19, 0x6D, 0x48,
       0x95, 0x47, 0x75, 0x97, 0xE9, 0xB3, 0x80, 0x37] := by
  decide

/-- C2 amended: the digest of the empty byte sequence equals the 16-byte
value 31 D6 CF E0 D1 6A E9 31 B7 3C 59 D7 E0 C0 89 C0, the canonical
RFC 1320 MD4 value for the empty string. -/
theorem md4_empty_digest :
    md4_data [] =
      [0x31, 0xd6, 0xcf, 0xe0, 0xd1, 0x6a, 0xe9, 0x31,
       0xb7, 0x3c, 0x59, 0xd7, 0xe0, 0xc0, 0x89, 0xc0] := by
  decide

/-- C3: for every byte-sequence input, of any length, the digest operation
returns a value of exactly 16 bytes. -/
theorem md4_digest_length (b : List Nat) : (md4_data b).length = 16 :=
  stateBytes_length _

/-- C4: the padded message is the input, one 0x80 byte, the minimal number
of 0x00 bytes making the running length congruent to 56 modulo 64, then the
original bit length 8*L as a 64-bit little-endian integer; the padded
length is a multiple of 64. -/
theorem pad_structure (b : List Nat) :
    pad b = b ++ [0x80] ++ List.replicate (padZeros b.length) 0 ++ lenBytes b.length ∧
    (b.length + 1 + padZeros b.length) % 64 = 56 ∧
    (∀ z, z < padZeros b.length → (b.length + 1 + z) % 64 ≠ 56) ∧
    (lenBytes b.length).length = 8 ∧
    bytesToNatLE (lenBytes b.length) = 8 * b.length % 2 ^ 64 ∧
    (pad b).length % 64 = 0 := by
  refine ⟨rfl, ?_, ?_, ?_, ?_, ?_⟩
  · simp only [padZeros]
    omega
  · intro z hz
    simp only [padZeros] at hz
    omega
  · simp [lenBytes]
  · simp only [bytesToNatLE, lenBytes, List.range_succ, List.range_zero, List.map_append,
      List.map_cons, List.map_nil, List.foldr_append, List.foldr_cons, List.foldr_nil,
      Nat.shiftRight_eq_div_pow]
    norm_num
    omega
  · have h8 : (lenBytes b.length).length = 8 := by simp [lenBytes]
    simp only [pad, List.length_append, List.length_cons, List.length_nil,
      List.length_replicate, h8, padZeros]
    omega

/-- C4 witness: the padding facts at the concrete one-byte input 0x61. -/
theorem pad_structure_witness :
    (pad [0x61]).length % 64 = 0 ∧ ([0x61].length + 1 + padZeros [0x61].length) % 64 = 56 :=
  ⟨(pad_structure [0x61]).2.2.2.2.2, (pad_structure [0x61]).2.1⟩

/-- C5: each block is compressed by three 16-step rounds — round 1 applies
F over X[0..15] in order with shifts cycling {3,7,11,19}; round 2 applies G
with constant 0x5A827999, word order X[0,4,8,12,1,5,9,13,2,6,10,14,3,7,11,15]
(the (4*i) mod 15 pattern with fixed point 15) and shifts cycling {3,5,9,13};
round 3 applies H with constant 0x6ED9EBA1, word order
X[0,8,4,12,2,10,6,14,1,9,5,13,3,11,7,15] (bit reversal of the 4-bit step
index) and shifts cycling {3,9,11,15}; each step updates one state word by
rotate_left(A + f(B,C,D) + X + const, s) in the cyclic A→D→C→B pattern. -/
theorem md4_round_structure (x y z i : Nat) (hi : i < 32) :
    round1order = List.range 16 ∧
    round2order = (List.range 16).map (fun k => if k = 15 then 15 else 4 * k % 15) ∧
    round3order = (List.range 16).map bitrev4 ∧
    roundSched round1order [3, 7, 11, 19] =
      [(0, 3), (1, 7), (2, 11), (3, 19), (4, 3), (5, 7), (6, 11), (7, 19),
       (8, 3), (9, 7), (10, 11), (11, 19), (12, 3), (13, 7), (14, 11), (15, 19)] ∧
    roundSched round2order [3, 5, 9, 13] =
      [(0, 3), (4, 5), (8, 9), (12, 13), (1, 3), (5, 5), (9, 9), (13, 13),
       (2, 3), (6, 5), (10, 9), (14, 13), (3, 3), (7, 5), (11, 9), (15, 13)] ∧
    roundSched round3order [3, 9, 11, 15] =
      [(0, 3), (8, 9), (4, 11), (12, 15), (2, 3), (10, 9), (6, 11), (14, 15),
       (1, 3), (9, 9), (5, 11), (13, 15), (3, 3), (11, 9), (7, 11), (15, 15)] ∧
    (∀ f cst xw s a b c d, mdStep f cst xw s (a, b, c, d) =
      (d, rotl32 ((a + f b c d + xw + cst) % 2 ^ 32) s, b, c)) ∧
    (∀ f cst w st, mdRound f cst w [] st = st) ∧
    (∀ f cst w p sched st,
      mdRound f cst w (p :: sched) st = mdRound f cst w sched (mdStep f cst (w p.1) p.2 st)) ∧
    (∀ blk st, rounds3 blk st =
      mdRound mdH 0x6ED9EBA1 (blockWord blk) (roundSched round3order [3, 9, 11, 15])
        (mdRound mdG 0x5A827999 (blockWord blk) (roundSched round2order [3, 5, 9, 13])
          (mdRound mdF 0 (blockWord blk) (roundSched round1order [3, 7, 11, 19]) st))) ∧
    (mdF x y z).testBit i = (x.testBit i && y.testBit i || (!x.testBit i && z.testBit i)) ∧
    (mdG x y z).testBit i =
      (x.testBit i && y.testBit i || x.testBit i && z.testBit i || y.testBit i && z.testBit i) ∧
    (mdH x y z).testBit i = Bool.xor (x.testBit i) (Bool.xor (y.testBit i) (z.testBit i)) := by
  refine ⟨by decide, by decide, by decide, by decide, by decide, by decide,
    fun f cst xw s a b c d => rfl, fun f cst w st => rfl,
    fun f cst w p sched st => rfl, fun blk st => rfl, ?_, ?_, ?_⟩
  · have hm : Nat.testBit mask32 i = true := by
      rw [show mask32 = 2 ^ 32 - 1 from rfl, Nat.testBit_two_pow_sub_one]
      simp [hi]
    simp [mdF, Nat.testBit_lor, Nat.testBit_land, Nat.testBit_xor, hm]
  · simp [mdG, Nat.testBit_lor, Nat.testBit_land]
  · simp [mdH, Nat.testBit_xor]

/-- C5 witness: the round-structure facts at the concrete bit position 5 of
the words 0xdeadbeef, 0x12345678, 0xcafebabe. -/
theorem md4_round_structure_witness :
    (mdF 0xdeadbeef 0x12345678 0xcafebabe).testBit 5 =
      (Nat.testBit 0xdeadbeef 5 && Nat.testBit 0x12345678 5 ||
        (!Nat.testBit 0xdeadbeef 5 && Nat.testBit 0xcafebabe 5)) :=
  (md4_round_structure 0xdeadbeef 0x12345678 0xcafebabe 5 (by decide)).2.2.2.2.2.2.2.2.2.2.1

/-- C6: after the three rounds the state saved at the start of the block is
added back componentwise modulo 2^32; every state component stays a 32-bit
value (wraparound, never an error); and rotation is circular within a
32-bit word — bit i of the rotated word is bit (i + 32 - s) mod 32 of the
original. -/
theorem md4_mod32_arithmetic (blk : List Nat) (st : MDState) (x s i : Nat)
    (hx : x < 2 ^ 32) (hs : s < 32) (hi : i < 32) :
    processBlock blk st =
      (((rounds3 blk st).1 + st.1) % 2 ^ 32,
       ((rounds3 blk st).2.1 + st.2.1) % 2 ^ 32,
       ((rounds3 blk st).2.2.1 + st.2.2.1) % 2 ^ 32,
       ((rounds3 blk st).2.2.2 + st.2.2.2) % 2 ^ 32) ∧
    (processBlock blk st).1 < 2 ^ 32 ∧
    (processBlock blk st).2.1 < 2 ^ 32 ∧
    (processBlock blk st).2.2.1 < 2 ^ 32 ∧
    (processBlock blk st).2.2.2 < 2 ^ 32 ∧
    rotl32 x s < 2 ^ 32 ∧
    (rotl32 x s).testBit i = x.testBit ((i + 32 - s) % 32) := by
  refine ⟨rfl, Nat.mod_lt _ (by norm_num), Nat.mod_lt _ (by norm_num),
    Nat.mod_lt _ (by norm_num), Nat.mod_lt _ (by norm_num),
    Nat.mod_lt _ (by norm_num), ?_⟩
  show (((x <<< s) ||| (x >>> (32 - s))) % 2 ^ 32).testBit i = x.testBit ((i + 32 - s) % 32)
  rw [Nat.testBit_mod_two_pow, Nat.testBit_lor, Nat.testBit_shiftLeft, Nat.testBit_shiftRight]
  rcases Nat.lt_or_ge i s with h | h
  · have hd : decide (s ≤ i) = false := by simp [h]
    have hnum : (i + 32 - s) % 32 = 32 - s + i := by omega
    simp [hi, hd, hnum]
  · have hd : decide (s ≤ i) = true := by simp [h]
    have hhigh : x.testBit (32 - s + i) = false :=
      Nat.testBit_eq_false_of_lt
        (lt_of_lt_of_le hx (Nat.pow_le_pow_right (by norm_num) (by omega)))
    have hnum : (i + 32 - s) % 32 = i - s := by omega
    simp [hi, hd, hhigh, hnum]

/-- C6 witness: the arithmetic facts at a concrete block, state, word,
shift and bit position. -/
theorem md4_mod32_arithmetic_witness :
    rotl32 0xdeadbeef 7 < 2 ^ 32 ∧
    (rotl32 0xdeadbeef 7).testBit 3 = Nat.testBit 0xdeadbeef ((3 + 32 - 7) % 32) :=
  ⟨(md4_mod32_arithmetic [] (0, 0, 0, 0) 0xdeadbeef 7 3 (by norm_num) (by norm_num)
      (by norm_num)).2.2.2.2.2.1,
   (md4_mod32_arithmetic [] (0, 0, 0, 0) 0xdeadbeef 7 3 (by norm_num) (by norm_num)
      (by norm_num)).2.2.2.2.2.2⟩

/-- C7: the digest is a deterministic pure function of the input bytes
only: in any sequence of calls, two calls on equal arguments return equal
results regardless of their positions, and the result of a call is
independent of the calls made before it. -/
theorem md4_deterministic (calls : List RValue) (i j : Nat)
    (hi : i < calls.length) (hj : j < calls.length)
    (heq : calls.get ⟨i, hi⟩ = calls.get ⟨j, hj⟩) :
    (calls.map md4).get ⟨i, by simpa using hi⟩ = (calls.map md4).get ⟨j, by simpa using hj⟩ ∧
    (∀ pre b, (pre ++ [RValue.rstring b]).map md4 = pre.map md4 ++ [Except.ok (md4_data b)]) := by
  constructor
  · simp only [List.get_eq_getElem, List.getElem_map]
    simp only [List.get_eq_getElem] at heq
    rw [heq]
  · intro pre b
    simp [md4]

/-- C7 witness: in a concrete three-call sequence, the first and third
calls take the same argument and return the same digest. -/
theorem md4_deterministic_witness :
    ([RValue.rstring [0x61], RValue.other 0, RValue.rstring [0x61]].map md4).get
        ⟨0, by norm_num⟩ =
      ([RValue.rstring [0x61], RValue.other 0, RValue.rstring [0x61]].map md4).get
        ⟨2, by norm_num⟩ :=
  (md4_deterministic [RValue.rstring [0x61], RValue.other 0, RValue.rstring [0x61]] 0 2
    (by norm_num) (by norm_num) (by decide)).1

/-- C8: the binding raises a caller-visible error exactly when its argument
is not a string, and for every byte-sequence argument it succeeds with a
16-byte digest. -/
theorem md4_error_iff (v : RValue) :
    ((∃ e, md4 v = Except.error e) ↔ isStringVal v = false) ∧
    (∀ b, md4 (RValue.rstring b) = Except.ok (md4_data b) ∧ (md4_data b).length = 16) := by
  constructor
  · cases v with
    | rstring b => simp [md4, isStringVal]
    | other t => simp [md4, isStringVal]
  · intro b
    exact ⟨rfl, stateBytes_length _⟩

/-- C9: a call leaves the caller-owned input and all other memory of the
world unchanged — same argument, same caller memory, same globals —
performs no I/O and, on a string argument, just returns the digest of the
argument bytes. -/
theorem md4_no_side_effects (w : World) :
    (md4_invoke w).1 = w ∧
    (md4_invoke w).1.arg = w.arg ∧
    (md4_invoke w).1.callerMem = w.callerMem ∧
    (md4_invoke w).1.globals = w.globals ∧
    (isStringVal w.arg = true →
      ∃ b, w.arg = RValue.rstring b ∧ (md4_invoke w).2 = Except.ok (md4_data b)) := by
  refine ⟨rfl, rfl, rfl, rfl, fun hstr => ?_⟩
  rcases hv : w.arg with b | t
  · exact ⟨b, rfl, by simp [md4_invoke, md4, hv]⟩
  · rw [hv] at hstr
    simp [isStringVal] at hstr

/-- C9 witness: invoking the binding on a concrete world returns that world
unchanged. -/
theorem md4_no_side_effects_witness :
    (md4_invoke ⟨RValue.rstring [0x61], [1, 2, 3], [4, 5]⟩).1 =
      ⟨RValue.rstring [0x61], [1, 2, 3], [4, 5]⟩ :=
  (md4_no_side_effects ⟨RValue.rstring [0x61], [1, 2, 3], [4, 5]⟩).1

/-- C10: on any non-string argument the binding raises RuntimeError with
message "No data to MD4 encode.", the raise happens right after the type
check and before any hashing — the trace holds no hashing and no return
event — and the world is left unmodified on the error path. -/
theorem md4_raise_before_hash (v : RValue) (h : isStringVal v = false) :
    md4 v = Except.error ("RuntimeError", "No data to MD4 encode.") ∧
    md4_trace v = [Event.typeCheck, Event.raised ("RuntimeError", "No data to MD4 encode.")] ∧
    (∀ b, Event.hashed b ∉ md4_trace v) ∧
    (∀ d, Event.returned d ∉ md4_trace v) ∧
    (∀ w : World, w.arg = v →
      md4_invoke w = (w, Except.error ("RuntimeError", "No data to MD4 encode."))) := by
  cases v with
  | rstring b => simp [isStringVal] at h
  | other t =>
    refine ⟨rfl, rfl, ?_, ?_, ?_⟩
    · intro b
      simp [md4_trace]
    · intro d
      simp [md4_trace]
    · intro w hw
      simp [md4_invoke, hw, md4]

/-- C10 witness: the error behavior at the concrete non-string argument
with tag 7. -/
theorem md4_raise_before_hash_witness :
    md4 (RValue.other 7) = Except.error ("RuntimeError", "No data to MD4 encode.") ∧
    md4_trace (RValue.other 7) =
      [Event.typeCheck, Event.raised ("RuntimeError", "No data to MD4 encode.")] :=
  ⟨(md4_raise_before_hash (RValue.other 7) rfl).1,
   (md4_raise_before_hash (RValue.other 7) rfl).2.1⟩

end ED2K
